import Mathlib

/-!
# Verification of the social-automation scheduler and publication coordinator

This file gives a shallow embedding of the core of the repository:

* `src/src/utils/schedule.ts` — the slot allocator (`getNextScheduleSlot`,
  `getNextScheduleSlots`);
* `src/functions/src/index.ts` — the publication coordinator
  (`processTweetDocument`, `publishTweetNow`, `uploadMediaAttachments`,
  `toMediaIdTuple`, `publishTweetWithClient`, `markTweetFailure`,
  `markTweetPosted`, `fetchTwitterAccountCredentials`);
* `src/src/services/bulkUploadService.ts` — the bulk scheduler
  (`shuffleArray`, `bulkScheduleTweets`).

Time is embedded as `Int` milliseconds since the Unix epoch.  The reference
deployment's time zone is `Asia/Dubai`, a fixed UTC+4 zone with no daylight
saving time, so every wall-clock computation performed by `date-fns-tz`
(`toZonedTime`, `startOfDay`, `fromZonedTime`, `formatInTimeZone`) is an
affine shift by the constant offset followed by flooring; `Int` division `/`
(Euclidean) coincides with floor division for the positive divisors used
here.  Firestore documents become Lean structures, Firestore transactions
become pure functions on the record (the transaction serializes access, per
the store's isolation guarantee), and every external effect (account lookup,
storage read, provider upload, posting) is a parameter gathered in an `Env`
structure.  Fallible paths return `Except String` mirroring thrown
`Error`s, and the callable entry point returns a typed error code mirroring
`functions.https.HttpsError`.
-/

/-! ## Slot allocator (`src/src/utils/schedule.ts`) -/

def MS_PER_MINUTE : Int := 60000

def MS_PER_HOUR : Int := 3600000

def MS_PER_DAY : Int := 86400000

/-- `Asia/Dubai` is UTC+4 with no DST: local wall-clock = UTC + this offset. -/
def DUBAI_OFFSET : Int := 4 * MS_PER_HOUR

/-- `SLOT_HOURS = Array.from({ length: 16 }, (_, index) => index + 4)`:
the local hours 4,5,…,19. -/
def SLOT_HOURS : List Nat := (List.range 16).map (fun i => i + 4)

/-- The fields of a stored tweet that the allocator reads
(`tweet.scheduledFor`, an instant). -/
structure ScheduledTweet where
  scheduledFor : Int
deriving DecidableEq

/-- `formatInTimeZone(t, 'Asia/Dubai', "yyyy-MM-dd HH:mm")`: the minute-
precision Dubai wall-clock string is in bijection with the floor of the
local time to the minute, so the key is embedded as the local minute
index. -/
def formatSlotKey (t : Int) : Int := (t + DUBAI_OFFSET) / MS_PER_MINUTE

/-- `getTakenSlotKeys` from `schedule.ts` (the JS `Set` is embedded as a
list used only for membership tests). -/
def getTakenSlotKeys (tweets : List ScheduledTweet) : List Int :=
  tweets.map (fun tw => formatSlotKey tw.scheduledFor)

/-- The Dubai-local day index of the start of `now`'s local day
(`startOfDay(toZonedTime(now, TIMEZONE))`). -/
def baseDayIndex (now : Int) : Int := (now + DUBAI_OFFSET) / MS_PER_DAY

/-- The UTC instant of hour `h` on the `d`-th day after the local start of
`now`'s day: `fromZonedTime(set(addDays(baseDay, d), { hours: h, minutes: 0,
seconds: 0, milliseconds: 0 }), TIMEZONE)`. -/
def slotUtc (now : Int) (d h : Nat) : Int :=
  (baseDayIndex now + d) * MS_PER_DAY + h * MS_PER_HOUR - DUBAI_OFFSET

/-- The inner hour loop of `getNextScheduleSlot`: skip slots not strictly
after `now`, skip taken slot keys, return the first free slot. -/
def findInDay (taken : List Int) (now : Int) (d : Nat) : List Nat → Option Int
  | [] => none
  | h :: hs =>
    let s := slotUtc now d h
    if s ≤ now then findInDay taken now d hs
    else if formatSlotKey s ∈ taken then findInDay taken now d hs
    else some s

/-- `getNextScheduleSlot(tweets, now)`; `none` embeds the thrown
`Unable to find an available schedule slot within 365 days`. -/
def getNextScheduleSlot (tweets : List ScheduledTweet) (now : Int) : Option Int :=
  (List.range 365).findSome? (fun d => findInDay (getTakenSlotKeys tweets) now d SLOT_HOURS)

/-- The inner hour loop of `getNextScheduleSlots`: the `break` once
`slots.length >= count` becomes the leading length test. -/
def collectInDay (taken : List Int) (now : Int) (d : Nat) (count : Nat) :
    List Nat → List Int → List Int
  | [], acc => acc
  | h :: hs, acc =>
    if count ≤ acc.length then acc
    else
      let s := slotUtc now d h
      if s ≤ now then collectInDay taken now d count hs acc
      else if formatSlotKey s ∈ taken then collectInDay taken now d count hs acc
      else collectInDay taken now d count hs (acc ++ [s])

/-- The outer day loop of `getNextScheduleSlots`
(`dayOffset < 365 && slots.length < count`). -/
def collectDays (taken : List Int) (now : Int) (count : Nat) :
    Nat → Nat → List Int → List Int
  | 0, _, acc => acc
  | fuel + 1, d, acc =>
    if count ≤ acc.length then acc
    else collectDays taken now count fuel (d + 1) (collectInDay taken now d count SLOT_HOURS acc)

/-- `getNextScheduleSlots(tweets, count, now)`; `none` embeds the thrown
`Unable to find N available schedule slots within 365 days`. -/
def getNextScheduleSlots (tweets : List ScheduledTweet) (count : Nat) (now : Int) :
    Option (List Int) :=
  let slots := collectDays (getTakenSlotKeys tweets) now count 365 0 []
  if slots.length < count then none else some slots

/-- The Dubai-local hour of day of an instant. -/
def dubaiHour (t : Int) : Int := ((t + DUBAI_OFFSET) % MS_PER_DAY) / MS_PER_HOUR

/-- The Dubai-local minute within the hour of an instant. -/
def dubaiMinute (t : Int) : Int := ((t + DUBAI_OFFSET) % MS_PER_HOUR) / MS_PER_MINUTE

/-! ### Bridge from the allocator's loops to filtered candidate lists -/

/-- The test a slot passes in the allocator's walk: strictly after `now`
and its key is free. -/
def slotOk (taken : List Int) (now s : Int) : Bool :=
  decide (now < s) && decide (formatSlotKey s ∉ taken)

/-- The qualifying slots of day `d` among hours `hs`, in hour order. -/
def daySlots (taken : List Int) (now : Int) (d : Nat) (hs : List Nat) : List Int :=
  (hs.map (slotUtc now d)).filter (slotOk taken now)

/-- All grid instants from day `d` on, for `fuel` consecutive days, in
chronological order. -/
def candFrom (now : Int) : Nat → Nat → List Int
  | 0, _ => []
  | fuel + 1, d => SLOT_HOURS.map (slotUtc now d) ++ candFrom now fuel (d + 1)

/-- The qualifying grid instants from day `d` on, for `fuel` days. -/
def freeSlots (taken : List Int) (now : Int) (fuel d : Nat) : List Int :=
  (candFrom now fuel d).filter (slotOk taken now)

/-! ## Publication coordinator (`src/functions/src/index.ts`) -/

deriving instance DecidableEq for Except

/-- `StoredTweetStatus` from `index.ts`. -/
inductive StoredTweetStatus where
  | draft
  | scheduled
  | queued
  | manual
  | processing
  | posted
  | failed
deriving DecidableEq, Repr

/-- `TweetMediaDoc` from `index.ts` (the `type` field is never read by the
publish pipeline and is omitted). -/
structure TweetMediaDoc where
  id : Option String
  storagePath : Option String
  contentType : Option String
deriving DecidableEq, Repr

/-- The persisted tweet document: the `TweetDocData` fields of `index.ts`
together with the fields the pipeline writes (`lastError`, `lastUpdatedAt`,
`postedAt`). -/
structure TweetRecord where
  authorUid : String
  groupId : String
  accountId : String
  text : String
  scheduledFor : Int
  status : StoredTweetStatus
  media : Option (List TweetMediaDoc)
  lastError : Option String
  lastUpdatedAt : Option Int
  postedAt : Option Int
deriving DecidableEq, Repr

/-- `TwitterClientCredentials` from `twitterClient.ts`. -/
structure TwitterClientCredentials where
  appKey : String
  appSecret : String
  accessToken : String
  accessSecret : String
deriving DecidableEq, Repr

/-- The `socialAccounts` document (`TwitterAccountDoc` in `index.ts`). -/
structure TwitterAccountDoc where
  provider : String
  ownerUid : String
  twitter : Option TwitterClientCredentials
deriving DecidableEq, Repr

/-- The 1–4-element `media_ids` tuple accepted by `client.v2.tweet`. -/
inductive MediaIdTuple where
  | one : String → MediaIdTuple
  | two : String → String → MediaIdTuple
  | three : String → String → String → MediaIdTuple
  | four : String → String → String → String → MediaIdTuple
deriving DecidableEq, Repr

def MediaIdTuple.toList : MediaIdTuple → List String
  | .one a => [a]
  | .two a b => [a, b]
  | .three a b c => [a, b, c]
  | .four a b c d => [a, b, c, d]

/-- A call to `client.v2.tweet`: text-only, or text with a media tuple. -/
inductive PostCall where
  | textOnly : String → PostCall
  | withMedia : String → MediaIdTuple → PostCall
deriving DecidableEq, Repr

/-- The external collaborators of the coordinator: the account-document
store, the network-client constructor, object storage (a path resolves to
an opaque byte-buffer id or is absent), the provider media upload, and the
provider post endpoint.  Each `Except` error carries the thrown message. -/
structure Env where
  accountDoc : String → String → Option TwitterAccountDoc
  createClient : TwitterClientCredentials → Except String Unit
  storage : String → Option Nat
  uploadMedia : Nat → String → Except String String
  tweet : PostCall → Except String Unit

/-- JS `String.prototype.trim`: drop whitespace from both ends (decidably
computable, unlike `String.trim`). -/
def jsTrim (s : String) : String :=
  ⟨((s.data.dropWhile Char.isWhitespace).reverse.dropWhile Char.isWhitespace).reverse⟩

/-- The typed error codes of `functions.https.HttpsError` used here. -/
inductive HttpsErrorCode where
  | unauthenticated
  | invalidArgument
  | notFound
  | permissionDenied
  | failedPrecondition
  | internal
deriving DecidableEq, Repr

/-- `markTweetFailure` from `index.ts`. -/
def markTweetFailure (r : TweetRecord) (message : String) (t : Int) : TweetRecord :=
  { r with status := .failed, lastUpdatedAt := some t, lastError := some message }

/-- `markTweetPosted` from `index.ts`. -/
def markTweetPosted (r : TweetRecord) (t : Int) : TweetRecord :=
  { r with status := .posted, postedAt := some t, lastUpdatedAt := some t, lastError := none }

/-- A JS falsiness test for an optional string field (`!x` is true for both
`undefined` and the empty string). -/
def isBlank : Option String → Bool
  | none => true
  | some s => decide (s = "")

/-- `fetchTwitterAccountCredentials` from `index.ts`: missing document,
non-twitter provider, or a missing/blank credential field all yield `null`;
otherwise the owner uid and the credential four-tuple. -/
def fetchTwitterAccountCredentials (env : Env) (groupId accountId : String) :
    Option (String × TwitterClientCredentials) :=
  match env.accountDoc groupId accountId with
  | none => none
  | some d =>
    if d.provider ≠ "twitter" then none
    else
      match d.twitter with
      | none => none
      | some tw =>
        if tw.appKey = "" ∨ tw.appSecret = "" ∨ tw.accessToken = "" ∨ tw.accessSecret = ""
        then none
        else some (d.ownerUid, tw)

/-- `downloadMediaFromStorage` from `index.ts`. -/
def downloadMediaFromStorage (env : Env) (storagePath : String) : Except String Nat :=
  match env.storage storagePath with
  | none => .error ("Media file not found at path " ++ storagePath)
  | some buffer => .ok buffer

/-- The `for (const item of attachments)` loop of `uploadMediaAttachments`:
validate the locator and content type, download, upload, accumulate; the
`try`/`catch` around download+upload wraps the message with the path. -/
def uploadMediaLoop (env : Env) : List TweetMediaDoc → List String → Except String (List String)
  | [], mediaIds => .ok mediaIds
  | item :: rest, mediaIds =>
    match item.storagePath, item.contentType with
    | some path, some contentType =>
      if path = "" ∨ contentType = "" then
        .error "Media attachment missing storage path or content type."
      else
        match (downloadMediaFromStorage env path).bind
            (fun buffer => env.uploadMedia buffer contentType) with
        | .ok mediaId => uploadMediaLoop env rest (mediaIds ++ [mediaId])
        | .error msg => .error ("Unable to upload media " ++ path ++ ": " ++ msg)
    | _, _ => .error "Media attachment missing storage path or content type."

/-- `uploadMediaAttachments` from `index.ts`: empty or missing media short-
circuits to `[]`; otherwise only `media.slice(0, 4)` is processed. -/
def uploadMediaAttachments (env : Env) (media : Option (List TweetMediaDoc)) :
    Except String (List String) :=
  match media with
  | none => .ok []
  | some l =>
    if l.length = 0 then .ok []
    else uploadMediaLoop env (l.take 4) []

/-- `toMediaIdTuple` from `index.ts`. -/
def toMediaIdTuple (mediaIds : List String) : Except String MediaIdTuple :=
  match mediaIds with
  | [a] => .ok (.one a)
  | [a, b] => .ok (.two a b)
  | [a, b, c] => .ok (.three a b c)
  | [a, b, c, d] => .ok (.four a b c d)
  | _ => .error "Media IDs must contain between 1 and 4 items."

/-- `publishTweetWithClient` from `index.ts`: upload the attachments, post
(with the tuple when any media id resulted, text-only otherwise), then mark
the record posted.  On success it also reports which post call was made. -/
def publishTweetWithClient (env : Env) (cur data : TweetRecord) (t : Int) :
    Except String (TweetRecord × PostCall) :=
  match uploadMediaAttachments env data.media with
  | .error msg => .error msg
  | .ok mediaIds =>
    if 0 < mediaIds.length then
      match toMediaIdTuple mediaIds with
      | .error msg => .error msg
      | .ok payload =>
        match env.tweet (.withMedia data.text payload) with
        | .error msg => .error msg
        | .ok _ => .ok (markTweetPosted cur t, .withMedia data.text payload)
    else
      match env.tweet (.textOnly data.text) with
      | .error msg => .error msg
      | .ok _ => .ok (markTweetPosted cur t, .textOnly data.text)

/-- The lock transaction of `processTweetDocument`: re-read the status; if
`processing` or `posted`, return `false` without writing; otherwise write
`status = processing`, clear `lastError`, stamp `lastUpdatedAt`, and return
`true`.  The transaction executes atomically against the record. -/
def sweepLockTransaction (r : TweetRecord) (t : Int) : TweetRecord × Bool :=
  if r.status = .processing ∨ r.status = .posted then (r, false)
  else ({ r with status := .processing, lastUpdatedAt := some t, lastError := none }, true)

/-- How the post-lock pipeline ended, with the message or the post call. -/
inductive PipelineOutcome where
  | noAccount : String → PipelineOutcome
  | ownerMismatch : String → PipelineOutcome
  | clientError : String → PipelineOutcome
  | publishError : String → PipelineOutcome
  | postedOk : PostCall → PipelineOutcome
deriving DecidableEq, Repr

/-- The shared post-lock pipeline (steps 206–233 of `processTweetDocument`
and 296–325 of `publishTweetNow`): resolve credentials, check the account
owner against `expectedUid` (the item's `authorUid` on the sweep path, the
caller's uid on the manual path), build the client, and publish; every
failure first persists `status = failed` with `lastError` via
`markTweetFailure`. -/
def runAfterLock (env : Env) (expectedUid : String) (data cur : TweetRecord) (t : Int) :
    TweetRecord × PipelineOutcome :=
  match fetchTwitterAccountCredentials env data.groupId data.accountId with
  | none =>
    (markTweetFailure cur "Twitter account configuration not found for this tweet." t,
      .noAccount "Twitter account configuration not found for this tweet.")
  | some (ownerUid, credentials) =>
    if ownerUid ≠ expectedUid then
      (markTweetFailure cur "You do not have permission to post with this social account." t,
        .ownerMismatch "You do not have permission to post with this social account.")
    else
      match env.createClient credentials with
      | .error msg => (markTweetFailure cur msg t, .clientError msg)
      | .ok _ =>
        match publishTweetWithClient env cur data t with
        | .ok (r2, call) => (r2, .postedOk call)
        | .error msg => (markTweetFailure cur msg t, .publishError msg)

/-- `processTweetDocument` from `index.ts`: try the lock; on skip return
with no write and no post; otherwise run the pipeline.  The result is the
final record, whether the lock was acquired, and the successful post call
if one was made (the sweep path surfaces no error). -/
def processTweetDocument (env : Env) (doc : TweetRecord) (t : Int) :
    TweetRecord × Bool × Option PostCall :=
  let lockResult := sweepLockTransaction doc t
  if lockResult.2 = false then (doc, false, none)
  else
    let res := runAfterLock env doc.authorUid doc lockResult.1 t
    match res.2 with
    | .postedOk call => (res.1, true, some call)
    | _ => (res.1, true, none)

/-- The lock transaction of `publishTweetNow` (lines 252–286): existence,
ownership and status preconditions are checked before any write; a thrown
`HttpsError` aborts the transaction, so the record is untouched.  On
success the record is locked and the snapshot read in the transaction is
returned. -/
def manualLockTransaction (uid : String) (doc : Option TweetRecord) (t : Int) :
    Except (HttpsErrorCode × String) (TweetRecord × TweetRecord) :=
  match doc with
  | none => .error (.notFound, "Tweet not found.")
  | some r =>
    if r.authorUid ≠ uid then
      .error (.permissionDenied, "You do not have access to this tweet.")
    else if r.status = .processing then
      .error (.failedPrecondition, "Tweet is already being processed.")
    else if r.status = .posted then
      .error (.failedPrecondition, "Tweet has already been posted.")
    else if r.status = .draft then
      .error (.failedPrecondition, "Draft tweets cannot be published.")
    else if r.status ≠ .manual then
      .error (.failedPrecondition, "Tweet must be marked as manual before publishing.")
    else
      .ok ({ r with status := .processing, lastUpdatedAt := some t, lastError := none }, r)

/-- `publishTweetNow` from `index.ts`: authentication, id validation, the
lock transaction, then the pipeline; pipeline failures are surfaced as
typed errors (`failed-precondition` for missing account configuration,
`permission-denied` for an owner mismatch, `internal` for client, upload
and post failures).  The result is the final record state, the successful
post call if any, and the response. -/
def publishTweetNow (env : Env) (auth : Option String) (tweetId : String)
    (doc : Option TweetRecord) (t : Int) :
    Option TweetRecord × Option PostCall × Except (HttpsErrorCode × String) Unit :=
  match auth with
  | none => (doc, none, .error (.unauthenticated, "Authentication is required."))
  | some uid =>
    if jsTrim tweetId = "" then
      (doc, none, .error (.invalidArgument, "Tweet ID is required."))
    else
      match manualLockTransaction uid doc t with
      | .error e => (doc, none, .error e)
      | .ok (locked, data) =>
        let res := runAfterLock env uid data locked t
        match res.2 with
        | .postedOk call => (some res.1, some call, .ok ())
        | .noAccount msg => (some res.1, none, .error (.failedPrecondition, msg))
        | .ownerMismatch msg => (some res.1, none, .error (.permissionDenied, msg))
        | .clientError msg => (some res.1, none, .error (.internal, msg))
        | .publishError msg => (some res.1, none, .error (.internal, msg))

/-- The two trigger paths that can race on one item. -/
inductive AttemptKind where
  | sweep : AttemptKind
  | manualCall : String → AttemptKind
deriving DecidableEq, Repr

/-- What one lock attempt observes. -/
inductive LockOutcome where
  | success : LockOutcome
  | skip : LockOutcome
  | rejected : HttpsErrorCode → String → LockOutcome
deriving DecidableEq, Repr

/-- One lock attempt (the serialization point of the two paths): the sweep
transaction returns success or skip; the manual transaction returns success
or a typed rejection, writing nothing when it rejects. -/
def lockAttempt : AttemptKind → TweetRecord → Int → TweetRecord × LockOutcome
  | .sweep, r, t =>
    let res := sweepLockTransaction r t
    (res.1, if res.2 then .success else .skip)
  | .manualCall uid, r, t =>
    match manualLockTransaction uid (some r) t with
    | .ok (locked, _) => (locked, .success)
    | .error (code, msg) => (r, .rejected code msg)

/-- Number of successful posts reported by a pipeline outcome. -/
def successfulPosts : PipelineOutcome → Nat
  | .postedOk _ => 1
  | _ => 0

/-! ## Bulk scheduler (`src/src/services/bulkUploadService.ts`) -/

/-- A file handed to the bulk scheduler (`File`): its name plus an opaque
content id. -/
structure BulkFile where
  name : String
  content : Nat
deriving DecidableEq, Repr

/-- The media record returned by `uploadTweetMedia` (opaque here). -/
structure UploadedMedia where
  mediaId : Nat
deriving DecidableEq, Repr

/-- The argument of `createTweet` built inside `bulkScheduleTweets`. -/
structure CreateTweetInput where
  text : String
  scheduledFor : Int
  groupId : String
  accountId : String
  status : StoredTweetStatus
  media : List UploadedMedia
deriving DecidableEq, Repr

/-- The bulk scheduler's collaborators: pre-publish media ingestion and
item creation, each of which can throw. -/
structure BulkEnv where
  uploadTweetMedia : String → BulkFile → Except String UploadedMedia
  createTweet : String → CreateTweetInput → Except String Unit

/-- One Fisher–Yates swap (`[shuffled[i], shuffled[j]] = [shuffled[j],
shuffled[i]]`). -/
def swapAt (l : List α) (i j : Nat) : List α :=
  match l[i]?, l[j]? with
  | some a, some b => (l.set i b).set j a
  | _, _ => l

/-- The Fisher–Yates loop of `shuffleArray`, from `i = length - 1` down to
`1`; `rand i` stands for `Math.floor(Math.random() * (i + 1))`, clamped to
`i` as the JS expression always is. -/
def shuffleAux (rand : Nat → Nat) : Nat → List α → List α
  | 0, l => l
  | i + 1, l => shuffleAux rand i (swapAt l (i + 1) (min (rand (i + 1)) (i + 1)))

/-- `shuffleArray` from `bulkUploadService.ts`, parameterized by the stream
of random draws. -/
def shuffleArray (rand : Nat → Nat) (l : List α) : List α :=
  shuffleAux rand (l.length - 1) l

/-- The result object of `bulkScheduleTweets`. -/
structure BulkScheduleResult where
  successful : Nat
  failed : Nat
  errors : List String
deriving DecidableEq, Repr

/-- The per-file loop of `bulkScheduleTweets`: upload the media, create the
scheduled item (empty text, single attachment, status `scheduled`); one
file's failure is caught, counted and recorded, and the loop continues.
The second component accumulates the names of the files attempted. -/
def bulkLoop (env : BulkEnv) (userId groupId accountId : String) :
    List (BulkFile × Int) → Nat → Nat → List String → List String →
      BulkScheduleResult × List String
  | [], completed, failed, errors, attempts =>
    ({ successful := completed, failed := failed, errors := errors }, attempts)
  | (file, slot) :: rest, completed, failed, errors, attempts =>
    match (env.uploadTweetMedia userId file).bind (fun media =>
        env.createTweet userId
          { text := "", scheduledFor := slot, groupId := groupId, accountId := accountId,
            status := .scheduled, media := [media] }) with
    | .ok _ =>
      bulkLoop env userId groupId accountId rest (completed + 1) failed errors
        (attempts ++ [file.name])
    | .error e =>
      bulkLoop env userId groupId accountId rest completed (failed + 1)
        (errors ++ [file.name ++ ": " ++ e]) (attempts ++ [file.name])

/-- `bulkScheduleTweets` from `bulkUploadService.ts` (progress callbacks
are pure notifications and are not modeled).  The second component lists
the files for which upload work was performed. -/
def bulkScheduleTweets (env : BulkEnv) (userId : String) (files : List BulkFile)
    (groupId accountId : String) (slots : List Int) (randFiles randSlots : Nat → Nat) :
    Except String BulkScheduleResult × List String :=
  if files.length = 0 then (.error "No files provided", [])
  else if slots.length < files.length then
    (.error ("Not enough available slots. Need " ++ toString files.length ++ ", have "
      ++ toString slots.length), [])
  else
    let shuffledFiles := shuffleArray randFiles files
    let shuffledSlots := shuffleArray randSlots (slots.take files.length)
    let res := bulkLoop env userId groupId accountId (shuffledFiles.zip shuffledSlots) 0 0 [] []
    (.ok res.1, res.2)

/-- A minimal environment for concrete evaluations: no account document is
configured, storage is empty, provider upload fails, posting succeeds. -/
def env0 : Env where
  accountDoc := fun _ _ => none
  createClient := fun _ => .ok ()
  storage := fun _ => none
  uploadMedia := fun _ _ => .error "no provider"
  tweet := fun _ => .ok ()

/-- A concrete record in status `manual` owned by `u`. -/
def rec0 : TweetRecord where
  authorUid := "u"
  groupId := "g"
  accountId := "a"
  text := "hello"
  scheduledFor := 0
  status := .manual
  media := none
  lastError := none
  lastUpdatedAt := none
  postedAt := none

/-- `rec0` in status `scheduled`. -/
def recScheduled : TweetRecord := { rec0 with status := .scheduled }

/-- `recScheduled` after a successful lock at time 0. -/
def recScheduledLocked : TweetRecord :=
  { recScheduled with status := .processing, lastUpdatedAt := some 0, lastError := none }

/-- `rec0` in status `posted`. -/
def recPosted : TweetRecord := { rec0 with status := .posted }

/-- A concrete fully-resolvable attachment. -/
def mediaGood : TweetMediaDoc := ⟨some "i1", some "pics/a.png", some "image/png"⟩

/-- `rec0` carrying one resolvable attachment. -/
def recMedia : TweetRecord := { rec0 with media := some [mediaGood] }

/-- An environment where storage and the provider always succeed. -/
def envMedia : Env where
  accountDoc := fun _ _ => none
  createClient := fun _ => .ok ()
  storage := fun _ => some 7
  uploadMedia := fun _ _ => .ok "mid"
  tweet := fun _ => .ok ()

/-- A bulk environment where ingestion and creation always succeed. -/
def bulkEnv0 : BulkEnv where
  uploadTweetMedia := fun _ _ => .ok ⟨1⟩
  createTweet := fun _ _ => .ok ()

/-- The ordering carried by the candidate grid: both the instants and the
slot keys are strictly increasing. -/
def slotRel (x y : Int) : Prop := x < y ∧ formatSlotKey x < formatSlotKey y

/-! ## Allocator theorems -/

theorem slotOk_eq_true_iff (taken : List Int) (now s : Int) :
    slotOk taken now s = true ↔ now < s ∧ formatSlotKey s ∉ taken := by
  simp [slotOk]

theorem findInDay_eq_head? (taken : List Int) (now : Int) (d : Nat) :
    ∀ hs : List Nat, findInDay taken now d hs = (daySlots taken now d hs).head?
  | [] => rfl
  | h :: hs => by
    have ih := findInDay_eq_head? taken now d hs
    rw [findInDay]
    simp only [daySlots, List.map_cons, List.filter_cons]
    by_cases h1 : slotUtc now d h ≤ now
    · have hko : slotOk taken now (slotUtc now d h) = false := by
        simp [slotOk]
        omega
      simp only [if_pos h1, hko, Bool.false_eq_true, if_false]
      exact ih
    · by_cases h2 : formatSlotKey (slotUtc now d h) ∈ taken
      · have hko : slotOk taken now (slotUtc now d h) = false := by
          simp [slotOk, h2]
        simp only [if_neg h1, if_pos h2, hko, Bool.false_eq_true, if_false]
        exact ih
      · have hko : slotOk taken now (slotUtc now d h) = true := by
          simp [slotOk, h2]
          omega
        simp only [if_neg h1, if_neg h2, hko, if_true, List.head?_cons]

theorem freeSlots_succ (taken : List Int) (now : Int) (fuel d : Nat) :
    freeSlots taken now (fuel + 1) d
      = daySlots taken now d SLOT_HOURS ++ freeSlots taken now fuel (d + 1) := by
  simp [freeSlots, candFrom, daySlots, List.filter_append]

theorem findSome?_findInDay_eq (taken : List Int) (now : Int) :
    ∀ fuel d, (List.range' d fuel).findSome?
        (fun d' => findInDay taken now d' SLOT_HOURS)
      = (freeSlots taken now fuel d).head?
  | 0, d => rfl
  | fuel + 1, d => by
    rw [List.range'_succ, List.findSome?_cons, freeSlots_succ, findInDay_eq_head?]
    cases hday : daySlots taken now d SLOT_HOURS with
    | nil => simpa using findSome?_findInDay_eq taken now fuel (d + 1)
    | cons x xs => simp

theorem getNextScheduleSlot_eq_head? (tweets : List ScheduledTweet) (now : Int) :
    getNextScheduleSlot tweets now
      = (freeSlots (getTakenSlotKeys tweets) now 365 0).head? := by
  rw [getNextScheduleSlot, List.range_eq_range']
  exact findSome?_findInDay_eq (getTakenSlotKeys tweets) now 365 0

theorem collectInDay_eq (taken : List Int) (now : Int) (d count : Nat) :
    ∀ hs acc, collectInDay taken now d count hs acc
      = acc ++ (daySlots taken now d hs).take (count - acc.length)
  | [], acc => by simp [collectInDay, daySlots]
  | h :: hs, acc => by
    rw [collectInDay]
    simp only [daySlots, List.map_cons, List.filter_cons]
    by_cases h0 : count ≤ acc.length
    · have : count - acc.length = 0 := by omega
      simp [h0, this]
    · by_cases h1 : slotUtc now d h ≤ now
      · have hko : slotOk taken now (slotUtc now d h) = false := by
          simp [slotOk]
          omega
        simp only [if_neg h0, if_pos h1, hko, Bool.false_eq_true, if_false]
        exact collectInDay_eq taken now d count hs acc
      · by_cases h2 : formatSlotKey (slotUtc now d h) ∈ taken
        · have hko : slotOk taken now (slotUtc now d h) = false := by
            simp [slotOk, h2]
          simp only [if_neg h0, if_neg h1, if_pos h2, hko, Bool.false_eq_true, if_false]
          exact collectInDay_eq taken now d count hs acc
        · have hko : slotOk taken now (slotUtc now d h) = true := by
            simp [slotOk, h2]
            omega
          simp only [if_neg h0, if_neg h1, if_neg h2, hko, if_true]
          rw [collectInDay_eq taken now d count hs (acc ++ [slotUtc now d h])]
          have hcnt : count - acc.length = (count - (acc ++ [slotUtc now d h]).length) + 1 := by
            simp only [List.length_append, List.length_cons, List.length_nil]
            omega
          rw [hcnt, List.take_succ_cons, List.append_assoc, List.singleton_append]
          simp [daySlots]

theorem collectDays_eq (taken : List Int) (now : Int) (count : Nat) :
    ∀ fuel d acc, collectDays taken now count fuel d acc
      = acc ++ (freeSlots taken now fuel d).take (count - acc.length)
  | 0, d, acc => by simp [collectDays, freeSlots, candFrom]
  | fuel + 1, d, acc => by
    rw [collectDays]
    by_cases h0 : count ≤ acc.length
    · have : count - acc.length = 0 := by omega
      simp [h0, this]
    · rw [if_neg h0, collectDays_eq taken now count fuel (d + 1) _, collectInDay_eq,
        freeSlots_succ, List.take_append_eq_append_take, List.append_assoc]
      have hlen : count - (acc ++ (daySlots taken now d SLOT_HOURS).take
          (count - acc.length)).length
          = count - acc.length - (daySlots taken now d SLOT_HOURS).length := by
        simp only [List.length_append, List.length_take]
        omega
      rw [hlen]

theorem getNextScheduleSlots_eq_take (tweets : List ScheduledTweet) (count : Nat) (now : Int) :
    getNextScheduleSlots tweets count now
      = (if ((freeSlots (getTakenSlotKeys tweets) now 365 0).take count).length < count
          then none
          else some ((freeSlots (getTakenSlotKeys tweets) now 365 0).take count)) := by
  rw [getNextScheduleSlots, collectDays_eq]
  simp

/-! ### Arithmetic facts about the slot grid -/

theorem slotUtc_decomp (now : Int) (d h : Nat) :
    slotUtc now d h + DUBAI_OFFSET = (baseDayIndex now + d) * 86400000 + h * 3600000 := by
  unfold slotUtc DUBAI_OFFSET MS_PER_DAY MS_PER_HOUR
  ring

theorem formatSlotKey_slotUtc (now : Int) (d h : Nat) :
    formatSlotKey (slotUtc now d h) = (baseDayIndex now + d) * 1440 + h * 60 := by
  unfold formatSlotKey
  rw [slotUtc_decomp]
  unfold MS_PER_MINUTE
  omega

theorem mem_SLOT_HOURS {h : Nat} : h ∈ SLOT_HOURS ↔ 4 ≤ h ∧ h ≤ 19 := by
  simp only [SLOT_HOURS, List.mem_map, List.mem_range]
  constructor
  · rintro ⟨i, hi, rfl⟩
    omega
  · rintro ⟨h1, h2⟩
    exact ⟨h - 4, by omega, by omega⟩


theorem slotRel_of_lex {now : Int} {d h d' h' : Nat} (hle : h ≤ 19)
    (hlex : d < d' ∨ (d = d' ∧ h < h')) :
    slotRel (slotUtc now d h) (slotUtc now d' h') := by
  constructor
  · have e1 := slotUtc_decomp now d h
    have e2 := slotUtc_decomp now d' h'
    rcases hlex with hd | ⟨rfl, hh⟩ <;> omega
  · rw [formatSlotKey_slotUtc, formatSlotKey_slotUtc]
    rcases hlex with hd | ⟨rfl, hh⟩ <;> omega

theorem mem_candFrom {now : Int} :
    ∀ {fuel d x}, x ∈ candFrom now fuel d ↔
      ∃ d' h, d ≤ d' ∧ d' < d + fuel ∧ h ∈ SLOT_HOURS ∧ x = slotUtc now d' h := by
  intro fuel
  induction fuel with
  | zero =>
    intro d x
    constructor
    · intro hx
      simp [candFrom] at hx
    · rintro ⟨d', h, h1, h2, -, -⟩
      omega
  | succ fuel ih =>
    intro d x
    rw [candFrom]
    simp only [List.mem_append, List.mem_map]
    constructor
    · rintro (⟨h, hh, rfl⟩ | hx)
      · exact ⟨d, h, Nat.le_refl d, by omega, hh, rfl⟩
      · obtain ⟨d', h, h1, h2, hh, rfl⟩ := ih.mp hx
        exact ⟨d', h, by omega, by omega, hh, rfl⟩
    · rintro ⟨d', h, h1, h2, hh, rfl⟩
      by_cases hd : d' = d
      · subst hd
        exact Or.inl ⟨h, hh, rfl⟩
      · exact Or.inr (ih.mpr ⟨d', h, by omega, by omega, hh, rfl⟩)

theorem pairwise_slotRel_candFrom (now : Int) :
    ∀ fuel d, List.Pairwise slotRel (candFrom now fuel d)
  | 0, _ => List.Pairwise.nil
  | fuel + 1, d => by
    rw [candFrom]
    refine List.pairwise_append.mpr ⟨?_, pairwise_slotRel_candFrom now fuel (d + 1), ?_⟩
    · have hp : List.Pairwise (fun a b => a < b ∧ a ≤ 19 ∧ b ≤ 19) SLOT_HOURS := by decide
      exact hp.map _ (fun a b hab => slotRel_of_lex hab.2.1 (Or.inr ⟨rfl, hab.1⟩))
    · intro x hx y hy
      obtain ⟨h, hh, rfl⟩ := List.mem_map.mp hx
      obtain ⟨d', h', hd', hlt', hh', rfl⟩ := mem_candFrom.mp hy
      exact slotRel_of_lex (mem_SLOT_HOURS.mp hh).2 (Or.inl (by omega))

theorem slotUtc_aligned (now : Int) (d : Nat) {h : Nat} (hh : h ∈ SLOT_HOURS) :
    (slotUtc now d h + DUBAI_OFFSET) % MS_PER_HOUR = 0 ∧
    dubaiHour (slotUtc now d h) = (h : Int) := by
  obtain ⟨h4, h19⟩ := mem_SLOT_HOURS.mp hh
  have e := slotUtc_decomp now d h
  simp only [dubaiHour, MS_PER_HOUR, MS_PER_DAY, DUBAI_OFFSET] at *
  omega

/-- Any instant strictly after `now` that sits exactly on a grid hour is of
the form `slotUtc now dd hh` for some day offset `dd` and grid hour `hh`. -/
theorem grid_instant_decomp {now t : Int} (hnow : now < t)
    (hal : (t + DUBAI_OFFSET) % MS_PER_HOUR = 0)
    (h4 : 4 ≤ dubaiHour t) (h19 : dubaiHour t ≤ 19) :
    ∃ dd hh : Nat, hh ∈ SLOT_HOURS ∧ t = slotUtc now dd hh := by
  refine ⟨((t + DUBAI_OFFSET) / MS_PER_DAY - baseDayIndex now).toNat,
    (dubaiHour t).toNat, mem_SLOT_HOURS.mpr ⟨by omega, by omega⟩, ?_⟩
  simp only [slotUtc, baseDayIndex, dubaiHour, MS_PER_HOUR, MS_PER_DAY,
    DUBAI_OFFSET, MS_PER_MINUTE] at *
  omega

theorem head?_le_of_pairwise {l : List Int} (hp : List.Pairwise (· < ·) l) {s x : Int}
    (hh : l.head? = some s) (hx : x ∈ l) : s ≤ x := by
  obtain ⟨ys, rfl⟩ := List.head?_eq_some_iff.mp hh
  rcases List.mem_cons.mp hx with rfl | hx
  · exact le_refl x
  · exact le_of_lt ((List.pairwise_cons.mp hp).1 x hx)

theorem pairwise_slotRel_freeSlots (taken : List Int) (now : Int) (fuel d : Nat) :
    List.Pairwise slotRel (freeSlots taken now fuel d) :=
  (pairwise_slotRel_candFrom now fuel d).filter _

/-- **C4** (slot allocator postcondition and determinism): whenever
`getNextScheduleSlot` returns an instant, the result is unique, strictly
after `now`, lies exactly on a grid hour (so in particular at local minute
zero) with Dubai-local hour in 4–19, its slot key is not taken by any
existing item, and it is the chronologically earliest such instant. -/
theorem getNextScheduleSlot_spec (tweets : List ScheduledTweet) (now s : Int)
    (h : getNextScheduleSlot tweets now = some s) :
    (∀ s', getNextScheduleSlot tweets now = some s' → s' = s) ∧
    now < s ∧
    (s + DUBAI_OFFSET) % MS_PER_HOUR = 0 ∧
    dubaiMinute s = 0 ∧
    (4 ≤ dubaiHour s ∧ dubaiHour s ≤ 19) ∧
    formatSlotKey s ∉ getTakenSlotKeys tweets ∧
    (∀ t : Int, now < t → (t + DUBAI_OFFSET) % MS_PER_HOUR = 0 →
      4 ≤ dubaiHour t → dubaiHour t ≤ 19 →
      formatSlotKey t ∉ getTakenSlotKeys tweets → s ≤ t) := by
  have hEq := getNextScheduleSlot_eq_head? tweets now
  have hh : (freeSlots (getTakenSlotKeys tweets) now 365 0).head? = some s :=
    hEq ▸ h
  have hpairF : List.Pairwise (· < ·) (freeSlots (getTakenSlotKeys tweets) now 365 0) :=
    (pairwise_slotRel_freeSlots _ now 365 0).imp (fun hr => hr.1)
  have hmemF : s ∈ freeSlots (getTakenSlotKeys tweets) now 365 0 := by
    obtain ⟨ys, hys⟩ := List.head?_eq_some_iff.mp hh
    rw [hys]
    exact List.mem_cons_self _ _
  have hfilter := List.mem_filter.mp hmemF
  have hok := (slotOk_eq_true_iff _ now s).mp hfilter.2
  obtain ⟨d0, h0, hd0, hd365, hmemH, hsEq⟩ := mem_candFrom.mp hfilter.1
  have halign := slotUtc_aligned now d0 hmemH
  have hbounds := mem_SLOT_HOURS.mp hmemH
  refine ⟨?_, hok.1, ?_, ?_, ?_, hok.2, ?_⟩
  · intro s' hs'
    rw [hEq, hh] at hs'
    exact (Option.some_injective _ hs').symm
  · rw [hsEq]
    exact halign.1
  · rw [hsEq] at *
    simp only [dubaiMinute, MS_PER_MINUTE]
    omega
  · rw [hsEq, halign.2]
    exact ⟨by exact_mod_cast hbounds.1, by exact_mod_cast hbounds.2⟩
  · intro t ht hal h4 h19 hfree
    obtain ⟨dd, hhr, hmem', htEq⟩ := grid_instant_decomp ht hal h4 h19
    by_cases hdd : dd < 365
    · have htmem : t ∈ freeSlots (getTakenSlotKeys tweets) now 365 0 :=
        List.mem_filter.mpr ⟨mem_candFrom.mpr ⟨dd, hhr, Nat.zero_le _, by omega, hmem', htEq⟩,
          (slotOk_eq_true_iff _ now t).mpr ⟨ht, hfree⟩⟩
      exact head?_le_of_pairwise hpairF hh htmem
    · rw [hsEq, htEq]
      exact le_of_lt (slotRel_of_lex hbounds.2 (Or.inl (by omega))).1

/-- **C5** (bulk slot distinctness): whenever `getNextScheduleSlots`
returns, it returns exactly `count` instants, strictly increasing (hence
pairwise distinct), each strictly after `now`, with pairwise-distinct slot
keys none of which collides with the existing items' keys. -/
theorem getNextScheduleSlots_spec (tweets : List ScheduledTweet) (count : Nat)
    (now : Int) (l : List Int)
    (h : getNextScheduleSlots tweets count now = some l) :
    l.length = count ∧
    List.Pairwise (· < ·) l ∧
    List.Pairwise (· ≠ ·) l ∧
    (∀ s ∈ l, now < s) ∧
    List.Pairwise (· ≠ ·) (l.map formatSlotKey) ∧
    (∀ s ∈ l, formatSlotKey s ∉ getTakenSlotKeys tweets) := by
  rw [getNextScheduleSlots_eq_take] at h
  set F := freeSlots (getTakenSlotKeys tweets) now 365 0 with hF
  by_cases hc : (F.take count).length < count
  · rw [if_pos hc] at h
    exact absurd h (by simp)
  · rw [if_neg hc] at h
    have hl : l = F.take count := (Option.some_injective _ h).symm
    subst hl
    have hpairSlot : List.Pairwise slotRel (F.take count) :=
      (pairwise_slotRel_freeSlots _ now 365 0).sublist (List.take_sublist _ _)
    have hmemF : ∀ s ∈ F.take count, now < s ∧ formatSlotKey s ∉ getTakenSlotKeys tweets := by
      intro s hs
      have hsF : s ∈ F := (List.take_sublist _ _).subset hs
      exact (slotOk_eq_true_iff _ now s).mp (List.mem_filter.mp hsF).2
    refine ⟨?_, hpairSlot.imp (fun hr => hr.1), ?_, fun s hs => (hmemF s hs).1, ?_,
      fun s hs => (hmemF s hs).2⟩
    · have := List.length_take count F
      omega
    · exact (hpairSlot.imp (fun hr => hr.1)).imp (fun hlt => ne_of_lt hlt)
    · rw [List.pairwise_map]
      exact hpairSlot.imp (fun hr => ne_of_lt hr.2)

/-- **C10** (scalar/bulk allocator agreement): requesting a single slot via
the bulk allocator gives exactly the scalar allocator's result (wrapped as
a one-element list), and each fails exactly when the other does. -/
theorem getNextScheduleSlots_one_eq (tweets : List ScheduledTweet) (now : Int) :
    getNextScheduleSlots tweets 1 now
      = (getNextScheduleSlot tweets now).map (fun s => [s]) := by
  rw [getNextScheduleSlots_eq_take, getNextScheduleSlot_eq_head?]
  cases freeSlots (getTakenSlotKeys tweets) now 365 0 with
  | nil => simp
  | cons x xs => simp

theorem length_swapAt (l : List α) (i j : Nat) : (swapAt l i j).length = l.length := by
  unfold swapAt
  split <;> simp

theorem length_shuffleAux (rand : Nat → Nat) :
    ∀ (n : Nat) (l : List α), (shuffleAux rand n l).length = l.length
  | 0, _ => rfl
  | n + 1, l => by rw [shuffleAux, length_shuffleAux rand n, length_swapAt]

theorem length_shuffleArray (rand : Nat → Nat) (l : List α) :
    (shuffleArray rand l).length = l.length :=
  length_shuffleAux rand _ l

/-! ## Coordinator lemmas -/

theorem publishTweetWithClient_ok {env : Env} {cur data : TweetRecord} {t : Int}
    {r2 : TweetRecord} {call : PostCall}
    (h : publishTweetWithClient env cur data t = .ok (r2, call)) :
    r2 = markTweetPosted cur t := by
  unfold publishTweetWithClient at h
  split at h
  · simp at h
  · split at h
    · split at h
      · simp at h
      · split at h
        · simp at h
        · simp only [Except.ok.injEq, Prod.mk.injEq] at h
          exact h.1.symm
    · split at h
      · simp at h
      · simp only [Except.ok.injEq, Prod.mk.injEq] at h
        exact h.1.symm

theorem runAfterLock_status (env : Env) (expectedUid : String) (data cur : TweetRecord)
    (t : Int) :
    (runAfterLock env expectedUid data cur t).1.status = .failed ∨
    (runAfterLock env expectedUid data cur t).1.status = .posted := by
  unfold runAfterLock
  split
  · exact Or.inl rfl
  · split
    · exact Or.inl rfl
    · split
      · exact Or.inl rfl
      · split
        · rename_i heq
          right
          rw [publishTweetWithClient_ok heq]
          rfl
        · exact Or.inl rfl

theorem successfulPosts_le_one (o : PipelineOutcome) : successfulPosts o ≤ 1 := by
  cases o <;> simp [successfulPosts]

/-- **C2** (lock-phase skip is write-free): a sweep lock attempt on a
record whose status reads `processing` or `posted` writes nothing and
reports skip (and the whole sweep processing of the item is then a no-op
with no post); on every other status the same transaction sets
`status = processing`, clears `lastError` and stamps `lastUpdatedAt`
before the pipeline continues. -/
theorem sweepLockTransaction_spec (env : Env) (r : TweetRecord) (t : Int) :
    (r.status = .processing ∨ r.status = .posted →
      sweepLockTransaction r t = (r, false) ∧
      processTweetDocument env r t = (r, false, none)) ∧
    (r.status ≠ .processing ∧ r.status ≠ .posted →
      sweepLockTransaction r t
        = ({ r with status := .processing, lastUpdatedAt := some t, lastError := none },
            true)) := by
  constructor
  · intro h
    have hlock : sweepLockTransaction r t = (r, false) := by
      unfold sweepLockTransaction
      rw [if_pos h]
    exact ⟨hlock, by simp [processTweetDocument, hlock]⟩
  · intro h
    unfold sweepLockTransaction
    rw [if_neg (not_or.mpr h)]

/-- **C1** (at-most-once publication): from initial status `scheduled`,
when two lock attempts race (at least one from the sweep path, any manual
attempt authenticated as the author), exactly one observes success and
transitions the item to `processing`; the loser writes nothing and observes
skip or a `failed-precondition` rejection; the winning pipeline performs at
most one successful post, and it leaves the item in neither `scheduled`
nor `queued`. -/
theorem at_most_once_publication (a1 a2 : AttemptKind) (env : Env) (r r1 r2 : TweetRecord)
    (o1 o2 : LockOutcome) (t1 t2 t3 : Int)
    (hsched : r.status = .scheduled)
    (hsweep : a1 = .sweep ∨ a2 = .sweep)
    (hu1 : ∀ uid, a1 = .manualCall uid → uid = r.authorUid)
    (hu2 : ∀ uid, a2 = .manualCall uid → uid = r.authorUid)
    (h1 : lockAttempt a1 r t1 = (r1, o1))
    (h2 : lockAttempt a2 r1 t2 = (r2, o2)) :
    ((o1 = .success ∧ o2 ≠ .success) ∨ (o1 ≠ .success ∧ o2 = .success)) ∧
    r2.status = .processing ∧
    (o1 ≠ .success → r1 = r ∧ ∃ m, o1 = .rejected .failedPrecondition m) ∧
    (o2 ≠ .success → r2 = r1 ∧
      (o2 = .skip ∨ ∃ m, o2 = .rejected .failedPrecondition m)) ∧
    successfulPosts (runAfterLock env r.authorUid r r2 t3).2 ≤ 1 ∧
    (runAfterLock env r.authorUid r r2 t3).1.status ≠ .scheduled ∧
    (runAfterLock env r.authorUid r r2 t3).1.status ≠ .queued := by
  have hafter : (runAfterLock env r.authorUid r r2 t3).1.status ≠ .scheduled ∧
      (runAfterLock env r.authorUid r r2 t3).1.status ≠ .queued := by
    rcases runAfterLock_status env r.authorUid r r2 t3 with h | h <;>
      rw [h] <;> exact ⟨by simp, by simp⟩
  cases a1 with
  | sweep =>
    have hns : ¬(r.status = .processing ∨ r.status = .posted) := by
      rw [hsched]
      simp
    have hl1 : lockAttempt .sweep r t1
        = ({ r with status := .processing, lastUpdatedAt := some t1, lastError := none },
            .success) := by
      simp [lockAttempt, sweepLockTransaction, hns]
    rw [hl1] at h1
    obtain ⟨hr1, ho1⟩ := Prod.mk.injEq .. ▸ h1
    cases a2 with
    | sweep =>
      have hl2 : lockAttempt .sweep r1 t2 = (r1, .skip) := by
        simp [lockAttempt, sweepLockTransaction, ← hr1]
      rw [hl2] at h2
      obtain ⟨hr2, ho2⟩ := Prod.mk.injEq .. ▸ h2
      subst ho1 ho2
      refine ⟨Or.inl ⟨rfl, by simp⟩, ?_, by simp, ?_, successfulPosts_le_one _, hafter⟩
      · rw [← hr2, ← hr1]
      · intro
        exact ⟨hr2.symm, Or.inl rfl⟩
    | manualCall uid =>
      have huid : uid = r.authorUid := hu2 uid rfl
      have hl2 : lockAttempt (.manualCall uid) r1 t2
          = (r1, .rejected .failedPrecondition "Tweet is already being processed.") := by
        simp [lockAttempt, manualLockTransaction, ← hr1, huid]
      rw [hl2] at h2
      obtain ⟨hr2, ho2⟩ := Prod.mk.injEq .. ▸ h2
      subst ho1 ho2
      refine ⟨Or.inl ⟨rfl, by simp⟩, ?_, by simp, ?_, successfulPosts_le_one _, hafter⟩
      · rw [← hr2, ← hr1]
      · intro
        exact ⟨hr2.symm, Or.inr ⟨_, rfl⟩⟩
  | manualCall uid =>
    have huid : uid = r.authorUid := hu1 uid rfl
    have ha2 : a2 = .sweep := by
      rcases hsweep with h | h
      · exact absurd h (by simp)
      · exact h
    subst ha2
    have hl1 : lockAttempt (.manualCall uid) r t1
        = (r, .rejected .failedPrecondition "Tweet must be marked as manual before publishing.") := by
      simp [lockAttempt, manualLockTransaction, huid, hsched]
    rw [hl1] at h1
    obtain ⟨hr1, ho1⟩ := Prod.mk.injEq .. ▸ h1
    have hns : ¬(r1.status = .processing ∨ r1.status = .posted) := by
      rw [← hr1, hsched]
      simp
    have hl2 : lockAttempt .sweep r1 t2
        = ({ r1 with status := .processing, lastUpdatedAt := some t2, lastError := none },
            .success) := by
      simp [lockAttempt, sweepLockTransaction, hns]
    rw [hl2] at h2
    obtain ⟨hr2, ho2⟩ := Prod.mk.injEq .. ▸ h2
    subst ho1 ho2
    refine ⟨Or.inr ⟨by simp, rfl⟩, ?_, ?_, by simp, successfulPosts_le_one _, hafter⟩
    · rw [← hr2]
    · intro
      exact ⟨hr1.symm, ⟨_, rfl⟩⟩

/-- **C3** (manual publish precondition and terminal idempotence): an
authenticated caller matching `authorUid` invoking manual publish on an
item whose status is anything but `manual` — in particular on one already
`posted` — gets a `failed-precondition` error; the record is returned
unchanged (so `lastError` is untouched) and no post is performed. -/
theorem publishTweetNow_wrong_status (env : Env) (uid tweetId : String) (r : TweetRecord)
    (t : Int) (hid : jsTrim tweetId ≠ "") (hauth : r.authorUid = uid)
    (hstatus : r.status ≠ .manual) :
    ∃ msg, publishTweetNow env (some uid) tweetId (some r) t
      = (some r, none, .error (.failedPrecondition, msg)) := by
  have hne : ¬(r.authorUid ≠ uid) := by
    rw [hauth]
    exact fun h => h rfl
  have hlock : ∃ msg, manualLockTransaction uid (some r) t
      = .error (.failedPrecondition, msg) := by
    simp only [manualLockTransaction]
    rw [if_neg hne]
    by_cases h1 : r.status = .processing
    · rw [if_pos h1]
      exact ⟨_, rfl⟩
    · rw [if_neg h1]
      by_cases h2 : r.status = .posted
      · rw [if_pos h2]
        exact ⟨_, rfl⟩
      · rw [if_neg h2]
        by_cases h3 : r.status = .draft
        · rw [if_pos h3]
          exact ⟨_, rfl⟩
        · rw [if_neg h3, if_pos hstatus]
          exact ⟨_, rfl⟩
  obtain ⟨msg, hmsg⟩ := hlock
  exact ⟨msg, by simp [publishTweetNow, hid, hmsg]⟩

theorem uploadMediaLoop_ok (env : Env) (idOf : TweetMediaDoc → String) :
    ∀ (items : List TweetMediaDoc) (acc : List String),
      (∀ item ∈ items, ∃ p c b, item.storagePath = some p ∧ p ≠ "" ∧
        item.contentType = some c ∧ c ≠ "" ∧ env.storage p = some b ∧
        env.uploadMedia b c = .ok (idOf item)) →
      uploadMediaLoop env items acc = .ok (acc ++ items.map idOf)
  | [], acc, _ => by simp [uploadMediaLoop]
  | item :: rest, acc, hval => by
    obtain ⟨p, c, b, hp, hpne, hc, hcne, hs, hu⟩ := hval item (List.mem_cons_self _ _)
    have hdl : downloadMediaFromStorage env p = .ok b := by
      simp [downloadMediaFromStorage, hs]
    have hrest := uploadMediaLoop_ok env idOf rest (acc ++ [idOf item])
      (fun x hx => hval x (List.mem_cons_of_mem _ hx))
    rw [uploadMediaLoop, hp, hc]
    dsimp only
    rw [if_neg (by tauto), hdl]
    simp only [Except.bind, hu, hrest, List.map_cons, List.append_assoc,
      List.singleton_append]

theorem uploadMediaAttachments_ok (env : Env) (l : List TweetMediaDoc)
    (idOf : TweetMediaDoc → String)
    (hval : ∀ item ∈ l.take 4, ∃ p c b, item.storagePath = some p ∧ p ≠ "" ∧
      item.contentType = some c ∧ c ≠ "" ∧ env.storage p = some b ∧
      env.uploadMedia b c = .ok (idOf item)) :
    uploadMediaAttachments env (some l) = .ok ((l.take 4).map idOf) := by
  rw [uploadMediaAttachments]
  by_cases hz : l.length = 0
  · rw [if_pos hz]
    rw [List.length_eq_zero.mp hz]
    rfl
  · rw [if_neg hz, uploadMediaLoop_ok env idOf (l.take 4) [] hval]
    simp

theorem toMediaIdTuple_ok (ids : List String) (h1 : ids ≠ []) (h4 : ids.length ≤ 4) :
    ∃ payload, toMediaIdTuple ids = .ok payload ∧ payload.toList = ids :=
  match ids with
  | [] => absurd rfl h1
  | [_] => ⟨_, rfl, rfl⟩
  | [_, _] => ⟨_, rfl, rfl⟩
  | [_, _, _] => ⟨_, rfl, rfl⟩
  | [_, _, _, _] => ⟨_, rfl, rfl⟩
  | _ :: _ :: _ :: _ :: _ :: _ => absurd h4 (by simp)

/-- **C6** (media arity): with all supplied attachments resolvable, an item
with no attachments is posted with a text-only call; an item with
attachments is posted with a single media-tuple call whose arity is
`min 4 (number supplied)` and whose handles are exactly the uploads of the
first four attachments in their original order — a fifth and later
attachment is dropped without raising an error. -/
theorem publish_media_arity (env : Env) (cur data : TweetRecord) (t : Int)
    (l : List TweetMediaDoc) (idOf : TweetMediaDoc → String)
    (hmedia : data.media = some l ∨ (data.media = none ∧ l = []))
    (hval : ∀ item ∈ l.take 4, ∃ p c b, item.storagePath = some p ∧ p ≠ "" ∧
      item.contentType = some c ∧ c ≠ "" ∧ env.storage p = some b ∧
      env.uploadMedia b c = .ok (idOf item))
    (htweet : ∀ call, env.tweet call = .ok ()) :
    (l = [] → publishTweetWithClient env cur data t
      = .ok (markTweetPosted cur t, .textOnly data.text)) ∧
    (l ≠ [] → ∃ payload, publishTweetWithClient env cur data t
      = .ok (markTweetPosted cur t, .withMedia data.text payload) ∧
      payload.toList = (l.take 4).map idOf ∧
      payload.toList.length = min 4 l.length) := by
  have hup := uploadMediaAttachments_ok env l idOf hval
  constructor
  · intro hnil
    subst hnil
    rcases hmedia with hm | ⟨hm, -⟩
    · rw [publishTweetWithClient, hm, hup]
      simp [htweet]
    · rw [publishTweetWithClient, hm]
      simp [uploadMediaAttachments, htweet]
  · intro hne
    rcases hmedia with hmedia | ⟨-, hm⟩
    swap
    · exact absurd hm hne
    have hlen : ((l.take 4).map idOf).length = min 4 l.length := by
      simp [List.length_take]
    have hpos : 0 < ((l.take 4).map idOf).length := by
      rw [hlen]
      have : l.length ≠ 0 := fun h => hne (List.length_eq_zero.mp h)
      omega
    obtain ⟨payload, htup, hto⟩ := toMediaIdTuple_ok
      ((l.take 4).map idOf) (by intro h; rw [h] at hpos; simp at hpos)
      (by rw [hlen]; omega)
    refine ⟨payload, ?_, by rw [hto], by rw [hto, hlen]⟩
    rw [publishTweetWithClient, hmedia, hup]
    simp only [hpos, if_pos, htup, htweet]

theorem bulkLoop_counts (env : BulkEnv) (userId groupId accountId : String) :
    ∀ (pairs : List (BulkFile × Int)) (completed failed : Nat)
      (errors attempts : List String),
      (bulkLoop env userId groupId accountId pairs completed failed errors attempts).1.successful
          + (bulkLoop env userId groupId accountId pairs completed failed errors
              attempts).1.failed
        = completed + failed + pairs.length ∧
      (bulkLoop env userId groupId accountId pairs completed failed errors
            attempts).1.errors.length + failed
        = errors.length
          + (bulkLoop env userId groupId accountId pairs completed failed errors
              attempts).1.failed ∧
      (bulkLoop env userId groupId accountId pairs completed failed errors
          attempts).2.length
        = attempts.length + pairs.length
  | [], completed, failed, errors, attempts => by simp [bulkLoop]
  | (file, slot) :: rest, completed, failed, errors, attempts => by
    rw [bulkLoop]
    cases hcall : (env.uploadTweetMedia userId file).bind (fun media =>
        env.createTweet userId
          { text := "", scheduledFor := slot, groupId := groupId, accountId := accountId,
            status := .scheduled, media := [media] }) with
    | ok u =>
      obtain ⟨ih1, ih2, ih3⟩ := bulkLoop_counts env userId groupId accountId rest
        (completed + 1) failed errors (attempts ++ [file.name])
      dsimp only
      simp only [List.length_append, List.length_cons, List.length_nil] at ih1 ih2 ih3 ⊢
      omega
    | error e =>
      obtain ⟨ih1, ih2, ih3⟩ := bulkLoop_counts env userId groupId accountId rest completed
        (failed + 1) (errors ++ [file.name ++ ": " ++ e]) (attempts ++ [file.name])
      dsimp only
      simp only [List.length_append, List.length_cons, List.length_nil] at ih1 ih2 ih3 ⊢
      omega

/-- **C9** (bulk scheduler contract): with a non-empty file list, supplying
fewer slots than files fails fast with the count-mismatch error and no
upload work is performed; otherwise the call succeeds, every file is
attempted (even when earlier files fail), and the result reports
`successful + failed` equal to the number of files with one error message
per failed file. -/
theorem bulkScheduleTweets_spec (env : BulkEnv) (userId groupId accountId : String)
    (files : List BulkFile) (slots : List Int) (randFiles randSlots : Nat → Nat)
    (hne : files ≠ []) :
    (slots.length < files.length →
      bulkScheduleTweets env userId files groupId accountId slots randFiles randSlots
        = (.error ("Not enough available slots. Need " ++ toString files.length
            ++ ", have " ++ toString slots.length), [])) ∧
    (files.length ≤ slots.length →
      ∃ res attempts,
        bulkScheduleTweets env userId files groupId accountId slots randFiles randSlots
          = (.ok res, attempts) ∧
        res.successful + res.failed = files.length ∧
        res.errors.length = res.failed ∧
        attempts.length = files.length) := by
  have hz : ¬(files.length = 0) := fun h => hne (List.length_eq_zero.mp h)
  constructor
  · intro hlt
    rw [bulkScheduleTweets, if_neg hz, if_pos hlt]
  · intro hle
    have hnlt : ¬(slots.length < files.length) := by omega
    rw [bulkScheduleTweets, if_neg hz, if_neg hnlt]
    have hpairs : ((shuffleArray randFiles files).zip
        (shuffleArray randSlots (slots.take files.length))).length = files.length := by
      rw [List.length_zip, length_shuffleArray, length_shuffleArray, List.length_take]
      omega
    obtain ⟨h1, h2, h3⟩ := bulkLoop_counts env userId groupId accountId
      ((shuffleArray randFiles files).zip
        (shuffleArray randSlots (slots.take files.length))) 0 0 [] []
    refine ⟨_, _, rfl, ?_, ?_, ?_⟩
    · rw [h1, hpairs]
      omega
    · simp only [List.length_nil, Nat.add_zero, Nat.zero_add] at h2
      exact h2
    · rw [h3, hpairs]
      simp

theorem getNextScheduleSlot_spec_witness :
    (0 : Int) < 3600000 ∧ dubaiMinute 3600000 = 0 ∧
    formatSlotKey 3600000 ∉ getTakenSlotKeys [] := by
  obtain ⟨-, h2, -, h4, -, h6, -⟩ := getNextScheduleSlot_spec [] 0 3600000 (by decide)
  exact ⟨h2, h4, h6⟩

theorem getNextScheduleSlots_spec_witness :
    ([3600000, 7200000] : List Int).length = 2 ∧ (0 : Int) < 3600000 := by
  obtain ⟨h1, -, -, h4, -, -⟩ := getNextScheduleSlots_spec [] 2 0 [3600000, 7200000] (by decide)
  exact ⟨h1, h4 3600000 (by simp)⟩

theorem sweepLockTransaction_spec_witness :
    sweepLockTransaction recPosted 0 = (recPosted, false) :=
  ((sweepLockTransaction_spec env0 recPosted 0).1 (Or.inr (by decide))).1

theorem at_most_once_publication_witness :
    (LockOutcome.success = LockOutcome.success ∧ LockOutcome.skip ≠ LockOutcome.success) ∨
    (LockOutcome.success ≠ LockOutcome.success ∧ LockOutcome.skip = LockOutcome.success) := by
  have h := at_most_once_publication .sweep .sweep env0 recScheduled recScheduledLocked
    recScheduledLocked .success .skip 0 0 0 (by decide) (Or.inl rfl)
    (fun uid hk => nomatch hk) (fun uid hk => nomatch hk) (by decide) (by decide)
  exact h.1

theorem publishTweetNow_wrong_status_witness :
    (publishTweetNow env0 (some "u") "tweet-1" (some recPosted) 0).1 = some recPosted ∧
    (publishTweetNow env0 (some "u") "tweet-1" (some recPosted) 0).2.1 = none := by
  obtain ⟨msg, hmsg⟩ := publishTweetNow_wrong_status env0 "u" "tweet-1" recPosted 0
    (by decide) rfl (by decide)
  rw [hmsg]
  exact ⟨rfl, rfl⟩

theorem publish_media_arity_witness :
    (publishTweetWithClient envMedia rec0 recMedia 0).isOk = true := by
  obtain ⟨payload, hpub, -, -⟩ :=
    (publish_media_arity envMedia rec0 recMedia 0 [mediaGood] (fun _ => "mid") (Or.inl rfl)
      (by
        intro item hitem
        simp only [List.take, List.mem_singleton] at hitem
        subst hitem
        exact ⟨"pics/a.png", "image/png", 7, rfl, by decide, rfl, by decide, rfl, rfl⟩)
      (fun _ => rfl)).2 (by simp)
  rw [hpub]
  rfl

theorem bulkScheduleTweets_spec_witness :
    ((bulkScheduleTweets bulkEnv0 "u" [⟨"a.png", 1⟩] "g" "a" [0]
        (fun n => n) (fun n => n)).1).isOk = true := by
  obtain ⟨res, attempts, heq, -, -, -⟩ :=
    (bulkScheduleTweets_spec bulkEnv0 "u" "g" "a" [⟨"a.png", 1⟩] [0]
      (fun n => n) (fun n => n) (by decide)).2 (by decide)
  rw [heq]
  rfl
